import Mathlib

/-!
# Verification of the hcat dependency layer

Shallow embedding of the `dependency` package: the key-value-list query
(`kv_list.go`) and the health-service query (`health_service.go`), together
with the pieces of their environment they use (one-shot stop channel, the
Go standard library's stable sort, string trimming, error wrapping).

Go machine values are modelled as follows: strings are Lean `String`
(Go compares strings byte-lexicographically over UTF-8, which coincides with
the codepoint-lexicographic order used by Lean's `String` order instance);
`uint64` counters that are only copied verbatim are `Nat`; `int` fields are
`Int`; `[]byte` values that the code immediately converts with `string(...)`
are kept as `String`.
-/

/-- Go `error` values as they occur in this package: `errors.New`-style leaf
errors carrying a message, and `errors.Wrap err ctx` from `github.com/pkg/errors`,
which attaches a context string while retaining the wrapped cause. -/
inductive GoError where
  | errNew (msg : String)
  | wrap (ctx : String) (cause : GoError)
deriving DecidableEq, Inhabited

/-- The one-shot stop channel `chan struct{}`: nothing is ever sent on it, the
only operations the package performs are `close` and a non-blocking receive,
so the whole channel state is whether it has been closed. -/
structure GoChan where
  closed : Bool
deriving DecidableEq, Inhabited

/-- Go `close(ch)`: closing an already-closed channel panics with
"close of closed channel" (Go language specification); the panic is modelled
as the error branch of `Except`. -/
def closeChan (c : GoChan) : Except String GoChan :=
  if c.closed then Except.error "close of closed channel" else Except.ok ⟨true⟩

/-- A non-blocking receive attempt (`select` with a `default` branch) on a
channel that is never sent to: it is ready exactly when the channel is closed. -/
def chanReady (c : GoChan) : Bool :=
  c.closed

/-- Go string comparison `a < b` on the underlying character sequences
(byte-lexicographic on UTF-8, which coincides with codepoint-lexicographic
order), as a structurally recursive boolean. -/
def strLtChars : List Char → List Char → Bool
  | [], [] => false
  | [], _ :: _ => true
  | _ :: _, [] => false
  | a :: as, b :: bs =>
    if a.toNat < b.toNat then true
    else if b.toNat < a.toNat then false
    else strLtChars as bs

/-- Go `a < b` on strings. -/
def goStrLtB (a b : String) : Bool :=
  strLtChars a.data b.data

/-- Go `a <= b` on strings: the negation of `b < a` (the order is total). -/
def goStrLeB (a b : String) : Bool :=
  !(strLtChars b.data a.data)

/-- Go `strings.TrimPrefix s pre`: drop `pre` from the front of `s` when it is
a prefix, otherwise return `s` unchanged. -/
def trimPfx (s pre : String) : String :=
  if pre.data.isPrefixOf s.data then String.mk (s.data.drop pre.data.length) else s

/-- Go `strings.TrimLeft key "/"`: remove every leading `'/'`. -/
def trimLeftSlashes (s : String) : String :=
  String.mk (s.data.dropWhile (fun c => c == '/'))

/-- The ASCII whitespace characters recognised by Go `unicode.IsSpace` (the
strings this package trims contain no non-ASCII spaces). -/
def isSpaceGo (c : Char) : Bool :=
  c == ' ' || c == '\t' || c == '\n' || c == (Char.ofNat 11) || c == (Char.ofNat 12) || c == '\r'

/-- Go `strings.TrimSpace`: remove leading and trailing whitespace. -/
def goTrimSpace (s : String) : String :=
  String.mk (((s.data.dropWhile isSpaceGo).reverse.dropWhile isSpaceGo).reverse)

/-- Go `strings.Split(s, sep)` for a one-character separator (the only kind
this package uses), on the character list with an accumulator for the
current field. -/
def splitCharAux (sep : Char) : List Char → List Char → List String
  | [], acc => [String.mk acc.reverse]
  | c :: rest, acc =>
    if c == sep then String.mk acc.reverse :: splitCharAux sep rest []
    else splitCharAux sep rest (c :: acc)

/-- Go `strings.Split(s, sep)` for a one-character separator. -/
def goSplitChar (sep : Char) (s : String) : List String :=
  splitCharAux sep s.data []

/-- Go `strings.Join(parts, sep)` for a one-character separator. -/
def joinChar (sep : Char) : List String → String
  | [] => ""
  | [x] => x
  | x :: rest => x ++ String.singleton sep ++ joinChar sep rest

/-- Go `fmt` `%q` rendering of a string, for the strings appearing in this
package's error messages (none of which contain characters that `%q` escapes). -/
def goQuote (s : String) : String :=
  "\"" ++ s ++ "\""

/-- Model of Go `sort.Strings`: sorts a string slice ascending in the
byte-lexicographic order.  Duplicate strings are indistinguishable values, so
every correct sorting algorithm computes the same function on string lists;
insertion sort is used as the executable model. -/
def sortStrings (l : List String) : List String :=
  List.insertionSort (fun a b : String => goStrLeB a b = true) l

/-- `data.Swap i j` on a slice, as a list operation.  The sort routines below
only ever swap in-bounds indices; out-of-bounds indices (which would panic in
Go but are unreachable) leave the list unchanged. -/
def listSwap (l : List α) (i j : Nat) : List α :=
  if hi : i < l.length then
    if hj : j < l.length then
      (l.set i (l.get ⟨j, hj⟩)).set j (l.get ⟨i, hi⟩)
    else l
  else l

/-- The inner loop of Go's `insertionSort(data, a, b)`:
`for j := i; j > a && data.Less(j, j-1); j-- { data.Swap(j, j-1) }`,
with the current value of `j` as the recursion argument. -/
def insertInner [Inhabited α] (less : α → α → Bool) (a : Nat) : List α → Nat → List α
  | l, 0 => l
  | l, j + 1 =>
    if a < j + 1 ∧ less (l.getD (j + 1) default) (l.getD j default) = true then
      insertInner less a (listSwap l (j + 1) j) j
    else l

/-- Go's `insertionSort(data, a, b)` from `sort.go`: insert each `data[i]`
for `i := a+1; i < b; i++` into the sorted prefix by adjacent swaps. -/
def insertionSortGo [Inhabited α] (less : α → α → Bool) (a b : Nat) (l : List α) : List α :=
  (List.range' (a + 1) (b - (a + 1))).foldl (fun acc i => insertInner less a acc i) l

/-- The binary search in `symMerge`'s `m-a == 1` fast path:
`i,j := m,b; for i < j { h := (i+j)/2; if data.Less(h, a) { i = h+1 } else { j = h } }`. -/
def bsearchA [Inhabited α] (less : α → α → Bool) (l : List α) (a : Nat) :
    Nat → Nat → Nat → Nat
  | 0, i, _ => i
  | fuel + 1, i, j =>
    if i < j then
      let h := (i + j) / 2
      if less (l.getD h default) (l.getD a default) then bsearchA less l a fuel (h + 1) j
      else bsearchA less l a fuel i h
    else i

/-- The binary search in `symMerge`'s `b-m == 1` fast path:
`i,j := a,m; for i < j { h := (i+j)/2; if !data.Less(m, h) { i = h+1 } else { j = h } }`. -/
def bsearchB [Inhabited α] (less : α → α → Bool) (l : List α) (m : Nat) :
    Nat → Nat → Nat → Nat
  | 0, i, _ => i
  | fuel + 1, i, j =>
    if i < j then
      let h := (i + j) / 2
      if !(less (l.getD m default) (l.getD h default)) then bsearchB less l m fuel (h + 1) j
      else bsearchB less l m fuel i h
    else i

/-- The main binary search of `symMerge`:
`for start < r { c := (start+r)/2; if !data.Less(p-c, c) { start = c+1 } else { r = c } }`. -/
def bsearchC [Inhabited α] (less : α → α → Bool) (l : List α) (p : Nat) :
    Nat → Nat → Nat → Nat
  | 0, s, _ => s
  | fuel + 1, s, r =>
    if s < r then
      let c := (s + r) / 2
      if !(less (l.getD (p - c) default) (l.getD c default)) then bsearchC less l p fuel (c + 1) r
      else bsearchC less l p fuel s c
    else s

/-- Go's `swapRange(data, a, b, n)`: `for i := 0; i < n; i++ { data.Swap(a+i, b+i) }`. -/
def swapRangeGo (l : List α) (a b n : Nat) : List α :=
  (List.range n).foldl (fun acc i => listSwap acc (a + i) (b + i)) l

/-- The subtractive loop of Go's `rotate(data, a, m, b)`; returns the list and
the final value of `i` consumed by the closing `swapRange`.  The loop body
strictly decreases `i + j`, so fuel `i + j + 1` never runs out. -/
def rotateLoop : Nat → Nat → Nat → Nat → List α → (List α × Nat)
  | 0, _, i, _, l => (l, i)
  | fuel + 1, m, i, j, l =>
    if i ≠ j then
      if i > j then rotateLoop fuel m (i - j) j (swapRangeGo l (m - i) m j)
      else rotateLoop fuel m i (j - i) (swapRangeGo l (m - i) (m + j - i) i)
    else (l, i)

/-- Go's `rotate(data, a, m, b)` from `sort.go`. -/
def rotateGo (a m b : Nat) (l : List α) : List α :=
  let i := m - a
  let j := b - m
  let r := rotateLoop (i + j + 1) m i j l
  swapRangeGo r.1 (m - r.2) m r.2

/-- Go's `symMerge(data, a, m, b)` from `sort.go` (Kim & Kutzner symmetric
merge).  The recursion argument is fuel: every recursive call merges a strictly
smaller interval, so fuel `b - a + 1` at the outermost call never runs out.
Index arithmetic uses `Nat`; in every call reachable from `stable` the
subtractions are nonnegative, matching Go's `int` arithmetic. -/
def symMergeGo [Inhabited α] (less : α → α → Bool) :
    Nat → Nat → Nat → Nat → List α → List α
  | 0, _, _, _, l => l
  | fuel + 1, a, m, b, l =>
    if m - a = 1 then
      let i := bsearchA less l a (b + 1) m b
      (List.range' a (i - 1 - a)).foldl (fun acc k => listSwap acc k (k + 1)) l
    else if b - m = 1 then
      let i := bsearchB less l m (m + 1) a m
      ((List.range' (i + 1) (m - i)).reverse).foldl (fun acc k => listSwap acc k (k - 1)) l
    else
      let mid := (a + b) / 2
      let n := mid + m
      let s0 := if m > mid then n - b else a
      let r0 := if m > mid then mid else m
      let p := n - 1
      let start := bsearchC less l p (r0 + 1) s0 r0
      let e := n - start
      let l1 := if start < m ∧ m < e then rotateGo start m e l else l
      let l2 := if a < start ∧ start < mid then symMergeGo less fuel a start mid l1 else l1
      if mid < e ∧ e < b then symMergeGo less fuel mid e b l2 else l2

/-- Phase one of Go's `stable(data, n)`: insertion sort on consecutive blocks
of `blockSize` elements (`blockSize = 20`), then on the final partial block. -/
def stablePh1 [Inhabited α] (less : α → α → Bool) (n blockSize : Nat) :
    Nat → Nat → Nat → List α → List α
  | 0, _, _, l => l
  | fuel + 1, a, b, l =>
    if b ≤ n then stablePh1 less n blockSize fuel b (b + blockSize) (insertionSortGo less a b l)
    else insertionSortGo less a n l

/-- The inner loop of phase two of `stable(data, n)`: merge adjacent sorted
blocks of the current `blockSize` with `symMerge`. -/
def stableMergeInner [Inhabited α] (less : α → α → Bool) (n blockSize : Nat) :
    Nat → Nat → Nat → List α → List α
  | 0, _, _, l => l
  | fuel + 1, a, b, l =>
    if b ≤ n then
      stableMergeInner less n blockSize fuel b (b + 2 * blockSize)
        (symMergeGo less (n + 1) a (a + blockSize) b l)
    else if a + blockSize < n then symMergeGo less (n + 1) a (a + blockSize) n l
    else l

/-- Phase two of Go's `stable(data, n)`: repeatedly double the block size,
merging adjacent blocks, until one block covers the whole slice. -/
def stablePh2 [Inhabited α] (less : α → α → Bool) (n : Nat) :
    Nat → Nat → List α → List α
  | 0, _, l => l
  | fuel + 1, blockSize, l =>
    if blockSize < n then
      stablePh2 less n fuel (blockSize * 2) (stableMergeInner less n blockSize (n + 2) 0 (2 * blockSize) l)
    else l

/-- Go's `sort.Stable(data)` = `stable(data, data.Len())` from the standard
library's `sort.go`, with `blockSize = 20`, as a list transformation
parametrised by the `Less` method of the `sort.Interface` receiver. -/
def sortStableGo [Inhabited α] (less : α → α → Bool) (l : List α) : List α :=
  let n := l.length
  stablePh2 less n (n + 1) 20 (stablePh1 less n 20 (n + 2) 0 20 l)

/-- The fixed health-status vocabulary (`HealthAny` … `HealthMaint` constants
at the top of `health_service.go`). -/
def HealthAny : String := "any"

/-- Health status `"passing"`. -/
def HealthPassing : String := "passing"

/-- Health status `"warning"`. -/
def HealthWarning : String := "warning"

/-- Health status `"critical"`. -/
def HealthCritical : String := "critical"

/-- Health status `"maintenance"`. -/
def HealthMaint : String := "maintenance"

/-- The five legal filter tokens, in declaration order. -/
def statusVocab : List String :=
  [HealthAny, HealthPassing, HealthWarning, HealthCritical, HealthMaint]

/-- Modelled from the spec: `QueryOptions` (defined in `dependency.go`, outside
the reviewed sources) restricted to the two fields this package's `Fetch`
implementations write, and its `Merge`: for every field a zero-valued override
falls back to the base value, a non-zero override wins. -/
structure QueryOptions where
  Datacenter : String := ""
  Near : String := ""
deriving DecidableEq, Inhabited

/-- Modelled from the spec: the merge/override policy of `QueryOptions.Merge`
(`dependency.go`, outside the reviewed sources). -/
def QueryOptions.Merge (base o : QueryOptions) : QueryOptions :=
  { Datacenter := if o.Datacenter = "" then base.Datacenter else o.Datacenter
    Near := if o.Near = "" then base.Near else o.Near }

/-- `dep.ResponseMetadata`, the two fields this package populates. -/
structure ResponseMetadata where
  LastIndex : Nat
  LastContact : Nat
deriving DecidableEq, Inhabited

/-- The Consul client's `api.QueryMeta`, the two fields this package reads. -/
structure ConsulQueryMeta where
  LastIndex : Nat
  LastContact : Nat
deriving DecidableEq, Inhabited

/-- Modelled from the spec: `ErrStopped` (declared in `dependency.go`, outside
the reviewed sources) is the package's canonical `Cancelled` error value. -/
def ErrStopped : GoError :=
  GoError.errNew "dependency stopped"

/-- A raw `api.KVPair` as delivered by the transport collaborator
(`clients.Consul().KV().List`).  `Value []byte` is kept as the string the code
converts it to. -/
structure ConsulKVPair where
  Key : String
  Value : String
  CreateIndex : Nat
  ModifyIndex : Nat
  LockIndex : Nat
  Flags : Nat
  Session : String
deriving DecidableEq, Inhabited

/-- `KeyPair` from `kv_list.go`. -/
structure KeyPair where
  Path : String
  Key : String
  Value : String
  CreateIndex : Nat
  ModifyIndex : Nat
  LockIndex : Nat
  Flags : Nat
  Session : String
deriving DecidableEq, Inhabited

/-- `KVListQuery` from `kv_list.go`; the field `pfx` is the Go field
`prefix` (renamed only because `prefix` is reserved in this development). -/
structure KVListQuery where
  stopCh : GoChan
  dc : String
  pfx : String
  opts : QueryOptions := {}
deriving DecidableEq, Inhabited

/-- The value `NewKVListQuery` builds after its regex check (the regex lives in
`dependency.go`, outside the reviewed sources): a fresh open stop channel and
the two captured segments.  For the empty identifier the captures are empty. -/
def mkKVListQuery (dc pfx : String) : KVListQuery :=
  { stopCh := ⟨false⟩, dc := dc, pfx := pfx }

/-- `KVListQuery.String()` from `kv_list.go`. -/
def KVListQuery.toStr (d : KVListQuery) : String :=
  let p := if d.dc ≠ "" then d.pfx ++ "@" ++ d.dc else d.pfx
  "kv.list(" ++ p ++ ")"

/-- `KVListQuery.Stop()` from `kv_list.go`: `close(d.stopCh)`.  The error
branch is the Go runtime panic on a double close. -/
def KVListQuery.Stop (d : KVListQuery) : Except String KVListQuery :=
  (closeChan d.stopCh).map (fun ch => { d with stopCh := ch })

/-- The observable outcome of one `KVListQuery.Fetch` call: the returned
triple plus how many times the transport collaborator was invoked. -/
structure KVFetchOut where
  data : Option (List KeyPair)
  meta : Option ResponseMetadata
  err : Option GoError
  transportCalls : Nat
deriving DecidableEq, Inhabited

/-- The body of the `for _, pair := range list` loop of `KVListQuery.Fetch`:
one normalized `KeyPair`. -/
def normalizeKVPair (pfx : String) (pair : ConsulKVPair) : KeyPair :=
  { Path := pair.Key
    Key := trimLeftSlashes (trimPfx pair.Key pfx)
    Value := pair.Value
    CreateIndex := pair.CreateIndex
    ModifyIndex := pair.ModifyIndex
    LockIndex := pair.LockIndex
    Flags := pair.Flags
    Session := pair.Session }

/-- `KVListQuery.Fetch` from `kv_list.go`.  The transport collaborator
(`clients.Consul().KV().List`) is an oracle taking the arguments the code
passes (the queried path and the merged options); `transportCalls` records
how many times it was consulted. -/
def KVListQuery.Fetch (d : KVListQuery)
    (transport : String → QueryOptions → Except GoError (List ConsulKVPair × ConsulQueryMeta)) :
    KVFetchOut :=
  if chanReady d.stopCh then
    { data := none, meta := none, err := some ErrStopped, transportCalls := 0 }
  else
    let opts := d.opts.Merge { Datacenter := d.dc }
    match transport d.pfx opts with
    | Except.error e =>
      { data := none, meta := none, err := some (GoError.wrap d.toStr e), transportCalls := 1 }
    | Except.ok (list, qm) =>
      let pairs := list.map (normalizeKVPair d.pfx)
      { data := some pairs
        meta := some { LastIndex := qm.LastIndex, LastContact := qm.LastContact }
        err := none
        transportCalls := 1 }

/-- `api.AgentWeights` from the Consul client (two `int` fields). -/
structure AgentWeights where
  Passing : Int := 0
  Warning : Int := 0
deriving DecidableEq, Inhabited

/-- `api.HealthCheckDefinition` is never inspected by this package, only
copied verbatim; it is modelled as a unit value. -/
def HealthCheckDefinition : Type := Unit

instance : DecidableEq HealthCheckDefinition := fun _ _ => Decidable.isTrue rfl

instance : Inhabited HealthCheckDefinition := ⟨()⟩

/-- A raw `api.HealthCheck` as delivered by the transport collaborator.
The Go field `Type` is spelled `CheckType` (`Type` is reserved in Lean). -/
structure ConsulHealthCheck where
  Node : String := ""
  CheckID : String := ""
  Name : String := ""
  Status : String := ""
  Notes : String := ""
  Output : String := ""
  ServiceID : String := ""
  ServiceName : String := ""
  ServiceTags : List String := []
  CheckType : String := ""
  Namespace : String := ""
  Definition : HealthCheckDefinition := ()
deriving DecidableEq, Inhabited

/-- A raw `api.Node` as delivered by the transport collaborator (the fields
this package reads). -/
structure ConsulNode where
  Node : String := ""
  ID : String := ""
  Address : String := ""
  Datacenter : String := ""
  TaggedAddresses : List (String × String) := []
  Meta : List (String × String) := []
deriving DecidableEq, Inhabited

/-- A raw `api.AgentService` as delivered by the transport collaborator (the
fields this package reads). -/
structure ConsulAgentService where
  ID : String := ""
  Service : String := ""
  Address : String := ""
  Port : Int := 0
  Tags : List String := []
  Meta : List (String × String) := []
  Weights : AgentWeights := {}
  Namespace : String := ""
deriving DecidableEq, Inhabited

/-- A raw `api.ServiceEntry` (one element of the slice returned by
`Health().Service` / `Health().Connect`). -/
structure ConsulServiceEntry where
  Node : ConsulNode := {}
  Service : ConsulAgentService := {}
  Checks : List ConsulHealthCheck := []
deriving DecidableEq, Inhabited

/-- `ServiceTags` (`dep` package): a string slice. -/
def ServiceTags : Type := List String

instance : DecidableEq ServiceTags := inferInstanceAs (DecidableEq (List String))

instance : Inhabited ServiceTags := ⟨([] : List String)⟩

/-- `HealthCheck` from `health_service.go` (the Go field `Type` is spelled
`CheckType`). -/
structure HealthCheck where
  Node : String
  CheckID : String
  Name : String
  Status : String
  Notes : String
  Output : String
  ServiceID : String
  ServiceName : String
  ServiceTags : List String
  CheckType : String
  Namespace : String
  Definition : HealthCheckDefinition
deriving DecidableEq, Inhabited

/-- `HealthService` from `health_service.go`. -/
structure HealthService where
  Node : String
  NodeID : String
  NodeAddress : String
  NodeDatacenter : String
  NodeTaggedAddresses : List (String × String)
  NodeMeta : List (String × String)
  ServiceMeta : List (String × String)
  Address : String
  ID : String
  Name : String
  Tags : List String
  Checks : List HealthCheck
  Status : String
  Port : Int
  Weights : AgentWeights
  Namespace : String
deriving DecidableEq, Inhabited

/-- `ByNodeThenID.Less(i, j)` from `health_service.go`, expressed on the two
elements compared: node names with `<`, and on equal node names the service
ids with `<=`. -/
def lessHS (x y : HealthService) : Bool :=
  if goStrLtB x.Node y.Node then true
  else if x.Node == y.Node then goStrLeB x.ID y.ID
  else false

/-- `acceptStatus(list, s)` from `health_service.go`. -/
def acceptStatus (list : List String) (s : String) : Bool :=
  list.any (fun status => status == s || status == HealthAny)

/-- `HealthServiceQuery` from `health_service.go`. -/
structure HealthServiceQuery where
  stopCh : GoChan
  dc : String
  filters : List String
  name : String
  near : String
  tag : String
  connect : Bool
  opts : QueryOptions := {}
deriving DecidableEq, Inhabited

/-- The named capture groups of `HealthServiceQueryRe`. -/
structure HealthMatch where
  tag : String
  name : String
  dc : String
  near : String
  filter : String
deriving DecidableEq, Inhabited

/-- Split `s` at the first occurrence of the separator: the part before it and
the part after it (empty when the separator does not occur). -/
def splitOff (sep : Char) (s : String) : String × String :=
  match goSplitChar sep s with
  | [] => ("", "")
  | [x] => (x, "")
  | x :: rest => (x, joinChar sep rest)

/-- Modelled from the spec: the match/capture step of `healthServiceQuery`
against `HealthServiceQueryRe` (the segment regexes `tagRe`, `serviceNameRe`,
`dcRe`, `nearRe`, `filterRe` and the helper `regexpMatch` live in
`dependency.go`, outside the reviewed sources).  Per the spec the grammar is
the ordered optional-segment composition `[tag.]name[@datacenter][~near][|filter1,filter2,...]`,
anchored, with a greedy tag (everything before the last dot); the name segment
is required.  `none` models a failed `MatchString`. -/
def healthMatch (s : String) : Option HealthMatch :=
  let (r1, filter) := splitOff '|' s
  let (r2, near) := splitOff '~' r1
  let (r3, dc) := splitOff '@' r2
  let parts := goSplitChar '.' r3
  let tag := joinChar '.' parts.dropLast
  let nm := parts.getLastD ""
  if nm = "" then none
  else some { tag := tag, name := nm, dc := dc, near := near, filter := filter }

/-- The `for _, f := range split` loop in `healthServiceQuery` (lines 118–132):
trim each comma-separated token, keep the five legal statuses, skip empty
tokens, and fail on the first unknown token with the
`health.service: invalid filter` error naming it. -/
def filterLoop (s : String) : List String → Except GoError (List String)
  | [] => Except.ok []
  | f0 :: rest =>
    let f := goTrimSpace f0
    if f = HealthAny ∨ f = HealthPassing ∨ f = HealthWarning ∨ f = HealthCritical ∨ f = HealthMaint then
      match filterLoop s rest with
      | Except.ok fs => Except.ok (f :: fs)
      | Except.error e => Except.error e
    else if f = "" then filterLoop s rest
    else Except.error (GoError.errNew
      ("health.service: invalid filter: " ++ goQuote f ++ " in " ++ goQuote s))

/-- `healthServiceQuery(s, connect)` from `health_service.go`: match the
identifier, process the filter segment (defaulting to `{passing}` and sorting
with `sort.Strings`), and build the query with a fresh open stop channel. -/
def healthServiceQuery (s : String) (connect : Bool) : Except GoError HealthServiceQuery :=
  match healthMatch s with
  | none => Except.error (GoError.errNew ("health.service: invalid format: " ++ goQuote s))
  | some m =>
    let fsE : Except GoError (List String) :=
      if m.filter ≠ "" then
        match filterLoop s (goSplitChar ',' m.filter) with
        | Except.ok fs => Except.ok (sortStrings fs)
        | Except.error e => Except.error e
      else Except.ok [HealthPassing]
    match fsE with
    | Except.error e => Except.error e
    | Except.ok filters =>
      Except.ok
        { stopCh := ⟨false⟩
          dc := m.dc
          filters := filters
          name := m.name
          near := m.near
          tag := m.tag
          connect := connect }

/-- `NewHealthServiceQuery` from `health_service.go`. -/
def NewHealthServiceQuery (s : String) : Except GoError HealthServiceQuery :=
  healthServiceQuery s false

/-- `HealthServiceQuery.String()` from `health_service.go`. -/
def HealthServiceQuery.toStr (d : HealthServiceQuery) : String :=
  let n1 := if d.tag ≠ "" then d.tag ++ "." ++ d.name else d.name
  let n2 := if d.dc ≠ "" then n1 ++ "@" ++ d.dc else n1
  let n3 := if d.near ≠ "" then n2 ++ "~" ++ d.near else n2
  let n4 := if d.filters.length > 0 then n3 ++ "|" ++ joinChar ',' d.filters else n3
  "health.service(" ++ n4 ++ ")"

/-- `HealthServiceQuery.Stop()` from `health_service.go`: `close(d.stopCh)`. -/
def HealthServiceQuery.Stop (d : HealthServiceQuery) : Except String HealthServiceQuery :=
  (closeChan d.stopCh).map (fun ch => { d with stopCh := ch })

/-- Modelled from the spec: `deepCopyAndSortTags` (`dependency.go`, outside the
reviewed sources) deep-copies and lexicographically sorts the tag list. -/
def deepCopyAndSortTags (tags : List String) : List String :=
  sortStrings tags

/-- The per-check mapping inside `HealthServiceQuery.Fetch` ("custom mapping
to pick up tags"). -/
def normalizeCheck (c : ConsulHealthCheck) : HealthCheck :=
  { Node := c.Node
    CheckID := c.CheckID
    Name := c.Name
    Status := c.Status
    Notes := c.Notes
    Output := c.Output
    ServiceID := c.ServiceID
    ServiceName := c.ServiceName
    ServiceTags := c.ServiceTags
    CheckType := c.CheckType
    Namespace := c.Namespace
    Definition := c.Definition }

/-- The record built for one accepted entry inside `HealthServiceQuery.Fetch`
(lines 201–245): effective address falls back from the service address to the
node address, tags are deep-copied and sorted, checks are mapped field by
field, and `status` is the aggregated status computed for the entry. -/
def normalizeEntry (entry : ConsulServiceEntry) (status : String) : HealthService :=
  { Node := entry.Node.Node
    NodeID := entry.Node.ID
    NodeAddress := entry.Node.Address
    NodeDatacenter := entry.Node.Datacenter
    NodeTaggedAddresses := entry.Node.TaggedAddresses
    NodeMeta := entry.Node.Meta
    ServiceMeta := entry.Service.Meta
    Address := if entry.Service.Address = "" then entry.Node.Address else entry.Service.Address
    ID := entry.Service.ID
    Name := entry.Service.Service
    Tags := deepCopyAndSortTags entry.Service.Tags
    Checks := entry.Checks.map normalizeCheck
    Status := status
    Port := entry.Service.Port
    Weights := entry.Service.Weights
    Namespace := entry.Service.Namespace }

/-- The `for _, entry := range entries` loop of `HealthServiceQuery.Fetch`
(lines 191–246): aggregate each entry's status via the collaborator-provided
`AggregatedStatus`, skip entries rejected by `acceptStatus`, and normalize the
rest in order. -/
def healthLoop (filters : List String) (agg : List ConsulHealthCheck → String) :
    List ConsulServiceEntry → List HealthService
  | [] => []
  | e :: rest =>
    let status := agg e.Checks
    if acceptStatus filters status then normalizeEntry e status :: healthLoop filters agg rest
    else healthLoop filters agg rest

/-- The observable outcome of one `HealthServiceQuery.Fetch` call: the
returned triple, how many times the transport collaborator was invoked, and
the `passingOnly` flag passed to it (set exactly when it was invoked). -/
structure HealthFetchOut where
  data : Option (List HealthService)
  meta : Option ResponseMetadata
  err : Option GoError
  transportCalls : Nat
  passingOnlySent : Option Bool
deriving DecidableEq, Inhabited

/-- `HealthServiceQuery.Fetch` from `health_service.go`.  Collaborators are
oracles: `agg` is `api.HealthChecks.AggregatedStatus` (Consul client library),
and `transport` is `Health().Service` / `Health().Connect`, taking the
arguments the code passes (the `connect` selector, service name, tag,
`passingOnly` flag and merged options). -/
def HealthServiceQuery.Fetch (d : HealthServiceQuery)
    (agg : List ConsulHealthCheck → String)
    (transport : Bool → String → String → Bool → QueryOptions →
      Except GoError (List ConsulServiceEntry × ConsulQueryMeta)) :
    HealthFetchOut :=
  if chanReady d.stopCh then
    { data := none, meta := none, err := some ErrStopped, transportCalls := 0,
      passingOnlySent := none }
  else
    let opts := d.opts.Merge { Datacenter := d.dc, Near := d.near }
    let passingOnly : Bool := d.filters.length == 1 && d.filters.getD 0 "" == HealthPassing
    match transport d.connect d.name d.tag passingOnly opts with
    | Except.error e =>
      { data := none, meta := none, err := some (GoError.wrap d.toStr e),
        transportCalls := 1, passingOnlySent := some passingOnly }
    | Except.ok (entries, qm) =>
      let list := healthLoop d.filters agg entries
      let list := if d.near = "" then sortStableGo lessHS list else list
      { data := some list
        meta := some { LastIndex := qm.LastIndex, LastContact := qm.LastContact }
        err := none
        transportCalls := 1
        passingOnlySent := some passingOnly }

/-! ## Concrete sample data used by witnesses and counterexamples -/

/-- A fresh (never stopped) health-service query, as the parser builds for
the identifier `"svc"`. -/
def freshHealthQuery : HealthServiceQuery :=
  { stopCh := ⟨false⟩, dc := "", filters := [HealthPassing], name := "svc", near := "",
    tag := "", connect := false }

/-- A raw entry with node `"n"`, service id `"i"`, port 1. -/
def tieEntryA : ConsulServiceEntry :=
  { Node := { Node := "n" }, Service := { ID := "i", Port := 1 } }

/-- A raw entry with the same node `"n"` and service id `"i"` but port 2. -/
def tieEntryB : ConsulServiceEntry :=
  { Node := { Node := "n" }, Service := { ID := "i", Port := 2 } }

/-- A transport oracle returning the two tied entries, in the order A then B. -/
def tieTransport : Bool → String → String → Bool → QueryOptions →
    Except GoError (List ConsulServiceEntry × ConsulQueryMeta) :=
  fun _ _ _ _ _ => Except.ok ([tieEntryA, tieEntryB], { LastIndex := 0, LastContact := 0 })

/-- A raw entry for node `"node-b"`, service id `"b1"`. -/
def svcEntryB : ConsulServiceEntry :=
  { Node := { Node := "node-b" }, Service := { ID := "b1" } }

/-- A raw entry for node `"node-a"`, service id `"a1"`. -/
def svcEntryA : ConsulServiceEntry :=
  { Node := { Node := "node-a" }, Service := { ID := "a1" } }

/-- A transport oracle returning `"node-b"` before `"node-a"`. -/
def baTransport : Bool → String → String → Bool → QueryOptions →
    Except GoError (List ConsulServiceEntry × ConsulQueryMeta) :=
  fun _ _ _ _ _ => Except.ok ([svcEntryB, svcEntryA], { LastIndex := 5, LastContact := 1 })

/-- A key-value transport oracle with no pairs. -/
def kvEmptyTransport : String → QueryOptions → Except GoError (List ConsulKVPair × ConsulQueryMeta) :=
  fun _ _ => Except.ok ([], { LastIndex := 0, LastContact := 0 })

/-- A health transport oracle with no entries. -/
def healthEmptyTransport : Bool → String → String → Bool → QueryOptions →
    Except GoError (List ConsulServiceEntry × ConsulQueryMeta) :=
  fun _ _ _ _ _ => Except.ok ([], { LastIndex := 0, LastContact := 0 })

/-- The raw pair of the spec scenario: key `"app/config/timeout"`, value `"30"`. -/
def kvSamplePair : ConsulKVPair :=
  { Key := "app/config/timeout", Value := "30", CreateIndex := 10, ModifyIndex := 11,
    LockIndex := 0, Flags := 0, Session := "" }

/-- A key-value transport oracle returning the scenario pair. -/
def kvSampleTransport : String → QueryOptions → Except GoError (List ConsulKVPair × ConsulQueryMeta) :=
  fun _ _ => Except.ok ([kvSamplePair], { LastIndex := 12, LastContact := 3 })

/-- A key-value transport oracle that always fails. -/
def kvErrTransport : String → QueryOptions → Except GoError (List ConsulKVPair × ConsulQueryMeta) :=
  fun _ _ => Except.error (GoError.errNew "connection refused")

/-- A health transport oracle that always fails. -/
def healthErrTransport : Bool → String → String → Bool → QueryOptions →
    Except GoError (List ConsulServiceEntry × ConsulQueryMeta) :=
  fun _ _ _ _ _ => Except.error (GoError.errNew "connection refused")

/-- A raw entry whose service address is empty but whose node address is set. -/
def addrEntry : ConsulServiceEntry :=
  { Node := { Node := "n1", Address := "10.0.0.1" }, Service := { ID := "s1", Address := "" } }

/-- A transport oracle returning the address-fallback entry. -/
def addrTransport : Bool → String → String → Bool → QueryOptions →
    Except GoError (List ConsulServiceEntry × ConsulQueryMeta) :=
  fun _ _ _ _ _ => Except.ok ([addrEntry], { LastIndex := 0, LastContact := 0 })

/-! ## Helper lemmas: the stable sort permutes its input -/

theorem get_cons_set_perm :
    ∀ (t : List α) (j : Nat) (hj : j < t.length) (a : α),
      List.Perm (t.get ⟨j, hj⟩ :: t.set j a) (a :: t)
  | b :: t, 0, _, a => List.Perm.swap a b t
  | b :: t, j + 1, hj, a =>
    ((List.Perm.swap b (t.get ⟨j, Nat.lt_of_succ_lt_succ hj⟩) (t.set j a)).trans
      ((get_cons_set_perm t j (Nat.lt_of_succ_lt_succ hj) a).cons b)).trans
      (List.Perm.swap a b t)

theorem set_set_perm :
    ∀ (l : List α) (i j : Nat) (hi : i < l.length) (hj : j < l.length),
      List.Perm ((l.set i (l.get ⟨j, hj⟩)).set j (l.get ⟨i, hi⟩)) l
  | b :: t, 0, 0, _, _ => by simp
  | b :: t, 0, j + 1, hi, hj => by
    simpa using get_cons_set_perm t j (Nat.lt_of_succ_lt_succ hj) b
  | b :: t, i + 1, 0, hi, hj => by
    simpa using get_cons_set_perm t i (Nat.lt_of_succ_lt_succ hi) b
  | b :: t, i + 1, j + 1, hi, hj => by
    simpa using
      (set_set_perm t i j (Nat.lt_of_succ_lt_succ hi) (Nat.lt_of_succ_lt_succ hj)).cons b

theorem listSwap_perm (l : List α) (i j : Nat) : List.Perm (listSwap l i j) l := by
  unfold listSwap
  split
  · split
    · exact set_set_perm l i j (by assumption) (by assumption)
    · exact List.Perm.refl l
  · exact List.Perm.refl l

theorem foldl_perm (f : List α → β → List α) (h : ∀ acc x, List.Perm (f acc x) acc) :
    ∀ (xs : List β) (l : List α), List.Perm (xs.foldl f l) l
  | [], l => List.Perm.refl l
  | x :: xs, l => (foldl_perm f h xs (f l x)).trans (h l x)

theorem insertInner_perm [Inhabited α] (less : α → α → Bool) (a : Nat) :
    ∀ (j : Nat) (l : List α), List.Perm (insertInner less a l j) l
  | 0, l => List.Perm.refl l
  | j + 1, l => by
    rw [insertInner]
    split
    · exact (insertInner_perm less a j (listSwap l (j + 1) j)).trans (listSwap_perm l (j + 1) j)
    · exact List.Perm.refl l

theorem insertionSortGo_perm [Inhabited α] (less : α → α → Bool) (a b : Nat) (l : List α) :
    List.Perm (insertionSortGo less a b l) l :=
  foldl_perm _ (fun acc i => insertInner_perm less a i acc) _ l

theorem swapRangeGo_perm (l : List α) (a b n : Nat) :
    List.Perm (swapRangeGo l a b n) l :=
  foldl_perm _ (fun acc i => listSwap_perm acc (a + i) (b + i)) _ l

theorem rotateLoop_perm :
    ∀ (fuel m i j : Nat) (l : List α), List.Perm (rotateLoop fuel m i j l).1 l
  | 0, _, _, _, l => List.Perm.refl l
  | fuel + 1, m, i, j, l => by
    rw [rotateLoop]
    split
    · split
      · exact (rotateLoop_perm fuel m (i - j) j _).trans (swapRangeGo_perm l (m - i) m j)
      · exact (rotateLoop_perm fuel m i (j - i) _).trans (swapRangeGo_perm l (m - i) (m + j - i) i)
    · exact List.Perm.refl l

theorem rotateGo_perm (a m b : Nat) (l : List α) : List.Perm (rotateGo a m b l) l := by
  unfold rotateGo
  exact (swapRangeGo_perm _ _ _ _).trans (rotateLoop_perm _ _ _ _ l)

theorem perm_step (P : Prop) [Decidable P] (f : List α → List α) {l base : List α}
    (hf : ∀ x, List.Perm (f x) x) (h : List.Perm l base) :
    List.Perm (if P then f l else l) base := by
  split
  · exact (hf l).trans h
  · exact h

theorem symMergeGo_perm [Inhabited α] (less : α → α → Bool) :
    ∀ (fuel a m b : Nat) (l : List α), List.Perm (symMergeGo less fuel a m b l) l
  | 0, _, _, _, l => List.Perm.refl l
  | fuel + 1, a, m, b, l => by
    rw [symMergeGo]
    split
    · exact foldl_perm _ (fun acc k => listSwap_perm acc k (k + 1)) _ l
    · split
      · exact foldl_perm _ (fun acc k => listSwap_perm acc k (k - 1)) _ l
      · exact perm_step _ _ (fun x => symMergeGo_perm less fuel _ _ _ x)
          (perm_step _ _ (fun x => symMergeGo_perm less fuel _ _ _ x)
            (perm_step _ _ (fun x => rotateGo_perm _ _ _ x) (List.Perm.refl l)))

theorem stablePh1_perm [Inhabited α] (less : α → α → Bool) (n blockSize : Nat) :
    ∀ (fuel a b : Nat) (l : List α), List.Perm (stablePh1 less n blockSize fuel a b l) l
  | 0, _, _, l => List.Perm.refl l
  | fuel + 1, a, b, l => by
    rw [stablePh1]
    split
    · exact (stablePh1_perm less n blockSize fuel b (b + blockSize) _).trans
        (insertionSortGo_perm less a b l)
    · exact insertionSortGo_perm less a n l

theorem stableMergeInner_perm [Inhabited α] (less : α → α → Bool) (n blockSize : Nat) :
    ∀ (fuel a b : Nat) (l : List α), List.Perm (stableMergeInner less n blockSize fuel a b l) l
  | 0, _, _, l => List.Perm.refl l
  | fuel + 1, a, b, l => by
    rw [stableMergeInner]
    split
    · exact (stableMergeInner_perm less n blockSize fuel b (b + 2 * blockSize) _).trans
        (symMergeGo_perm less (n + 1) a (a + blockSize) b l)
    · split
      · exact symMergeGo_perm less (n + 1) a (a + blockSize) n l
      · exact List.Perm.refl l

theorem stablePh2_perm [Inhabited α] (less : α → α → Bool) (n : Nat) :
    ∀ (fuel blockSize : Nat) (l : List α), List.Perm (stablePh2 less n fuel blockSize l) l
  | 0, _, l => List.Perm.refl l
  | fuel + 1, blockSize, l => by
    rw [stablePh2]
    split
    · exact (stablePh2_perm less n fuel (blockSize * 2) _).trans
        (stableMergeInner_perm less n blockSize (n + 2) 0 (2 * blockSize) l)
    · exact List.Perm.refl l

theorem sortStableGo_perm [Inhabited α] (less : α → α → Bool) (l : List α) :
    List.Perm (sortStableGo less l) l := by
  unfold sortStableGo
  exact (stablePh2_perm less l.length (l.length + 1) 20 _).trans
    (stablePh1_perm less l.length 20 (l.length + 2) 0 20 l)

theorem mem_sortStableGo [Inhabited α] (less : α → α → Bool) (l : List α) (x : α) :
    x ∈ sortStableGo less l ↔ x ∈ l :=
  (sortStableGo_perm less l).mem_iff

/-! ## Helper lemmas: filter parsing, sorting of filters, the fetch loops -/

theorem strLt_irrefl : ∀ as : List Char, strLtChars as as = false
  | [] => rfl
  | a :: as => by
    rw [strLtChars, if_neg (Nat.lt_irrefl _), if_neg (Nat.lt_irrefl _)]
    exact strLt_irrefl as

theorem strLt_antisym : ∀ as bs : List Char,
    strLtChars as bs = true → strLtChars bs as = false
  | [], [], h => by cases h
  | [], _ :: _, _ => rfl
  | _ :: _, [], h => by cases h
  | a :: as, b :: bs, h => by
    rw [strLtChars] at h
    rw [strLtChars]
    by_cases h1 : a.toNat < b.toNat
    · rw [if_neg (Nat.lt_asymm h1), if_pos h1]
    · rw [if_neg h1] at h
      by_cases h2 : b.toNat < a.toNat
      · rw [if_pos h2] at h
        cases h
      · rw [if_neg h2] at h ⊢
        rw [if_neg h1]
        exact strLt_antisym as bs h

theorem strLt_chain : ∀ as bs cs : List Char,
    strLtChars cs as = true → strLtChars bs as = false → strLtChars cs bs = true
  | as, bs, [], hca, hba => by
    cases as with
    | nil => cases hca
    | cons a as =>
      cases bs with
      | nil => cases hba
      | cons b bs => rfl
  | as, [], c :: cs, hca, hba => by
    cases as with
    | nil => cases hca
    | cons a as => cases hba
  | [], b :: bs, c :: cs, hca, hba => by cases hca
  | a :: as, b :: bs, c :: cs, hca, hba => by
    rw [strLtChars] at hca hba ⊢
    by_cases hba1 : b.toNat < a.toNat
    · rw [if_pos hba1] at hba
      cases hba
    · rw [if_neg hba1] at hba
      by_cases hca1 : c.toNat < a.toNat
      · by_cases hab1 : a.toNat < b.toNat
        · exact if_pos (Nat.lt_trans hca1 hab1)
        · have hab : a.toNat = b.toNat :=
            Nat.le_antisymm (Nat.le_of_not_lt hba1) (Nat.le_of_not_lt hab1)
          exact if_pos (hab ▸ hca1)
      · rw [if_neg hca1] at hca
        by_cases hac1 : a.toNat < c.toNat
        · rw [if_pos hac1] at hca
          cases hca
        · rw [if_neg hac1] at hca
          have hceq : c.toNat = a.toNat :=
            Nat.le_antisymm (Nat.le_of_not_lt hac1) (Nat.le_of_not_lt hca1)
          by_cases hab1 : a.toNat < b.toNat
          · exact if_pos (hceq ▸ hab1)
          · rw [if_neg hab1] at hba
            have hbeq : b.toNat = a.toNat :=
              Nat.le_antisymm (Nat.le_of_not_lt hab1) (Nat.le_of_not_lt hba1)
            rw [if_neg (by rw [hceq, hbeq]; exact Nat.lt_irrefl _),
              if_neg (by rw [hceq, hbeq]; exact Nat.lt_irrefl _)]
            exact strLt_chain as bs cs hca hba

theorem goStrLeB_refl (a : String) : goStrLeB a a = true := by
  unfold goStrLeB
  rw [strLt_irrefl]
  rfl

instance : IsTotal String (fun a b : String => goStrLeB a b = true) := by
  constructor
  intro a b
  unfold goStrLeB
  by_cases h : strLtChars b.data a.data = true
  · right
    rw [strLt_antisym _ _ h]
    rfl
  · left
    rw [Bool.not_eq_true] at h
    rw [h]
    rfl

instance : IsTrans String (fun a b : String => goStrLeB a b = true) := by
  constructor
  intro a b c hab hbc
  unfold goStrLeB at hab hbc ⊢
  rw [Bool.not_eq_true'] at hab hbc ⊢
  by_cases hca : strLtChars c.data a.data = true
  · rw [strLt_chain _ _ _ hca hab] at hbc
    cases hbc
  · rwa [Bool.not_eq_true] at hca

theorem sortStrings_sorted (l : List String) :
    List.Sorted (fun a b : String => goStrLeB a b = true) (sortStrings l) :=
  List.sorted_insertionSort _ l

theorem mem_sortStrings (l : List String) (t : String) : t ∈ sortStrings l ↔ t ∈ l :=
  (List.perm_insertionSort _ l).mem_iff

theorem statusVocab_ne_empty : ∀ t ∈ statusVocab, t ≠ "" := by decide

theorem filterLoop_cond (f : String) :
    (f = HealthAny ∨ f = HealthPassing ∨ f = HealthWarning ∨ f = HealthCritical ∨
      f = HealthMaint) ↔ f ∈ statusVocab := by
  simp [statusVocab]

theorem filterLoop_all_valid (s : String) :
    ∀ (ts : List String), (∀ t ∈ ts, goTrimSpace t ∈ statusVocab ∨ goTrimSpace t = "") →
      filterLoop s ts = Except.ok ((ts.map goTrimSpace).filter (fun t => t ≠ ""))
  | [], _ => rfl
  | f0 :: rest, h => by
    have hrest := filterLoop_all_valid s rest (fun t ht => h t (List.mem_cons_of_mem f0 ht))
    rcases h f0 (List.mem_cons_self f0 rest) with hv | he
    · rw [filterLoop, if_pos ((filterLoop_cond (goTrimSpace f0)).mpr hv), hrest]
      have hne : goTrimSpace f0 ≠ "" := statusVocab_ne_empty _ hv
      simp [hne]
    · have hnv : ¬(goTrimSpace f0 = HealthAny ∨ goTrimSpace f0 = HealthPassing ∨ goTrimSpace f0 = HealthWarning ∨
          goTrimSpace f0 = HealthCritical ∨ goTrimSpace f0 = HealthMaint) := by
        rw [filterLoop_cond, he]
        decide
      rw [filterLoop, if_neg hnv, if_pos he, hrest]
      simp [he]

theorem filterLoop_first_invalid (s : String) :
    ∀ (l₁ : List String) (f : String) (l₂ : List String),
      (∀ g ∈ l₁, goTrimSpace g ∈ statusVocab ∨ goTrimSpace g = "") →
      goTrimSpace f ∉ statusVocab → goTrimSpace f ≠ "" →
      filterLoop s (l₁ ++ f :: l₂) = Except.error (GoError.errNew
        ("health.service: invalid filter: " ++ goQuote (goTrimSpace f) ++ " in " ++ goQuote s))
  | [], f, l₂, _, hnv, hne => by
    have hc : ¬(goTrimSpace f = HealthAny ∨ goTrimSpace f = HealthPassing ∨ goTrimSpace f = HealthWarning ∨
        goTrimSpace f = HealthCritical ∨ goTrimSpace f = HealthMaint) := by
      rw [filterLoop_cond]; exact hnv
    rw [List.nil_append, filterLoop, if_neg hc, if_neg hne]
  | g0 :: l₁, f, l₂, h, hnv, hne => by
    have hrest := filterLoop_first_invalid s l₁ f l₂
      (fun g hg => h g (List.mem_cons_of_mem g0 hg)) hnv hne
    rcases h g0 (List.mem_cons_self g0 l₁) with hv | he
    · rw [List.cons_append, filterLoop, if_pos ((filterLoop_cond (goTrimSpace g0)).mpr hv), hrest]
    · have hnv0 : ¬(goTrimSpace g0 = HealthAny ∨ goTrimSpace g0 = HealthPassing ∨ goTrimSpace g0 = HealthWarning ∨
          goTrimSpace g0 = HealthCritical ∨ goTrimSpace g0 = HealthMaint) := by
        rw [filterLoop_cond, he]
        decide
      rw [List.cons_append, filterLoop, if_neg hnv0, if_pos he, hrest]

theorem filterLoop_ok_mem (s : String) :
    ∀ (ts fs : List String), filterLoop s ts = Except.ok fs → ∀ t ∈ fs, t ∈ statusVocab
  | [], fs, hok => by
    rw [filterLoop] at hok
    cases hok
    intro t ht
    cases ht
  | f0 :: rest, fs, hok => by
    rw [filterLoop] at hok
    split at hok
    · rename_i hv
      cases hrec : filterLoop s rest with
      | ok fs2 =>
        rw [hrec] at hok
        cases hok
        intro t ht
        rcases List.mem_cons.mp ht with rfl | ht2
        · exact (filterLoop_cond _).mp hv
        · exact filterLoop_ok_mem s rest fs2 hrec t ht2
      | error e => rw [hrec] at hok; cases hok
    · split at hok
      · exact fun t ht => filterLoop_ok_mem s rest fs hok t ht
      · cases hok

theorem mem_healthLoop (filters : List String) (agg : List ConsulHealthCheck → String) :
    ∀ (es : List ConsulServiceEntry) (x : HealthService),
      x ∈ healthLoop filters agg es ↔
        ∃ e, e ∈ es ∧ acceptStatus filters (agg e.Checks) = true ∧
          x = normalizeEntry e (agg e.Checks)
  | [], x => by simp [healthLoop]
  | e :: rest, x => by
    rw [healthLoop]
    split
    · rename_i hacc
      simp only [List.mem_cons, mem_healthLoop filters agg rest x]
      constructor
      · rintro (rfl | ⟨e2, he2, hacc2, rfl⟩)
        · exact ⟨e, Or.inl rfl, hacc, rfl⟩
        · exact ⟨e2, Or.inr he2, hacc2, rfl⟩
      · rintro ⟨e2, (rfl | he2), hacc2, rfl⟩
        · exact Or.inl rfl
        · exact Or.inr ⟨e2, he2, hacc2, rfl⟩
    · rename_i hacc
      rw [mem_healthLoop filters agg rest x]
      constructor
      · rintro ⟨e2, he2, hacc2, rfl⟩
        exact ⟨e2, List.mem_cons_of_mem e he2, hacc2, rfl⟩
      · rintro ⟨e2, he2, hacc2, rfl⟩
        rcases List.mem_cons.mp he2 with rfl | he3
        · exact absurd hacc2 (by simpa using hacc)
        · exact ⟨e2, he3, hacc2, rfl⟩

theorem healthLoop_eq_filter_map (filters : List String)
    (agg : List ConsulHealthCheck → String) :
    ∀ es : List ConsulServiceEntry,
      healthLoop filters agg es =
        (es.filter (fun e => acceptStatus filters (agg e.Checks))).map
          (fun e => normalizeEntry e (agg e.Checks))
  | [] => rfl
  | e :: rest => by
    rw [healthLoop, healthLoop_eq_filter_map filters agg rest]
    by_cases h : acceptStatus filters (agg e.Checks) = true
    · rw [if_pos h]
      simp [List.filter_cons, h]
    · rw [if_neg h]
      simp [List.filter_cons, h]

theorem acceptStatus_iff (fs : List String) (s : String) :
    acceptStatus fs s = true ↔ s ∈ fs ∨ HealthAny ∈ fs := by
  unfold acceptStatus
  rw [List.any_eq_true]
  constructor
  · rintro ⟨x, hx, hor⟩
    rcases Bool.or_eq_true_iff.mp hor with h | h
    · exact Or.inl (eq_of_beq h ▸ hx)
    · exact Or.inr (eq_of_beq h ▸ hx)
  · rintro (h | h)
    · exact ⟨s, h, by simp⟩
    · exact ⟨HealthAny, h, by simp⟩

theorem passingOnly_eq (l : List String) :
    (l.length == 1 && (l.getD 0 "" == HealthPassing)) = decide (l = [HealthPassing]) := by
  match l with
  | [] => rfl
  | [x] => by_cases h : x = HealthPassing <;> simp [h]
  | x :: y :: t => simp

theorem lessHS_of_eq {x y : HealthService} (h1 : x.Node = y.Node) (h2 : x.ID = y.ID) :
    lessHS x y = true := by
  have ha : goStrLtB x.Node y.Node = false := by
    unfold goStrLtB
    rw [h1]
    exact strLt_irrefl _
  have hb : (x.Node == y.Node) = true := by rw [h1]; simp
  have hc : goStrLeB x.ID y.ID = true := by
    unfold goStrLeB
    rw [h2, strLt_irrefl]
    rfl
  unfold lessHS
  simp [ha, hb, hc]

theorem sortStableGo_pair_swap [Inhabited α] (less : α → α → Bool) (a b : α)
    (h : less b a = true) : sortStableGo less [a, b] = [b, a] := by
  show stablePh2 less 2 3 20 (stablePh1 less 2 20 4 0 20 [a, b]) = [b, a]
  rw [stablePh1, if_neg (by norm_num)]
  rw [show insertionSortGo less 0 2 [a, b] = insertInner less 0 [a, b] 1 from rfl]
  rw [insertInner, if_pos ⟨Nat.zero_lt_one, by simpa using h⟩, insertInner]
  rw [show listSwap [a, b] 1 0 = [b, a] from by simp [listSwap]]
  rw [stablePh2, if_neg (by norm_num)]

theorem sorted_singleton_goStrLe (x : String) :
    List.Sorted (fun a b : String => goStrLeB a b = true) [x] := by
  simp

/-- C5: for every health-service identifier the parser splits the filter
segment on commas, trims whitespace from each token, accepts exactly the
tokens of the status vocabulary (skipping empty tokens), fails with the
invalid-filter error naming the first offending non-empty token, defaults the
filter set to `[passing]` when no filter segment is present, and stores the
accepted filters sorted. -/
theorem health_filter_contract (s : String) (c : Bool) (m : HealthMatch)
    (hm : healthMatch s = some m) :
    (∀ q, healthServiceQuery s c = Except.ok q →
        List.Sorted (fun a b : String => goStrLeB a b = true) q.filters ∧
        ∀ t ∈ q.filters, t ∈ statusVocab) ∧
    (m.filter = "" → ∃ q, healthServiceQuery s c = Except.ok q ∧ q.filters = [HealthPassing]) ∧
    (m.filter ≠ "" → (∀ t ∈ goSplitChar ',' m.filter,
        goTrimSpace t ∈ statusVocab ∨ goTrimSpace t = "") →
      ∃ q, healthServiceQuery s c = Except.ok q ∧
        q.filters = sortStrings (((goSplitChar ',' m.filter).map goTrimSpace).filter
          (fun t => t ≠ ""))) ∧
    (∀ (l₁ : List String) (f : String) (l₂ : List String),
      goSplitChar ',' m.filter = l₁ ++ f :: l₂ →
      (∀ g ∈ l₁, goTrimSpace g ∈ statusVocab ∨ goTrimSpace g = "") →
      goTrimSpace f ∉ statusVocab → goTrimSpace f ≠ "" →
      healthServiceQuery s c = Except.error (GoError.errNew
        ("health.service: invalid filter: " ++ goQuote (goTrimSpace f) ++ " in " ++ goQuote s))) := by
  by_cases hf : m.filter = ""
  · have hq : healthServiceQuery s c = Except.ok
        { stopCh := ⟨false⟩, dc := m.dc, filters := [HealthPassing], name := m.name,
          near := m.near, tag := m.tag, connect := c } := by
      unfold healthServiceQuery
      rw [hm]
      simp [hf]
    refine ⟨?_, ?_, ?_, ?_⟩
    · intro q hq2
      rw [hq] at hq2
      cases hq2
      refine ⟨sorted_singleton_goStrLe _, ?_⟩
      intro t ht
      simp only [List.mem_singleton] at ht
      subst ht
      decide
    · intro _
      exact ⟨_, hq, rfl⟩
    · intro hne _
      exact absurd hf hne
    · intro l₁ f l₂ hsplit hval hnv hne
      rw [hf] at hsplit
      have heq : l₁ ++ f :: l₂ = [""] := by rw [← hsplit]; rfl
      cases l₁ with
      | nil =>
        injection heq with h1 h2
        subst h1
        exact absurd (by rfl) hne
      | cons g t =>
        injection heq with h1 h2
        exact absurd h2 (by simp)
  · refine ⟨?_, ?_, ?_, ?_⟩
    · intro q hq2
      simp only [healthServiceQuery, hm] at hq2
      rw [if_pos hf] at hq2
      cases hfl : filterLoop s (goSplitChar ',' m.filter) with
      | error e =>
        rw [hfl] at hq2
        cases hq2
      | ok fs =>
        rw [hfl] at hq2
        cases hq2
        constructor
        · exact sortStrings_sorted fs
        · intro t ht
          exact filterLoop_ok_mem s _ fs hfl t ((mem_sortStrings fs t).mp ht)
    · intro hf2
      exact absurd hf2 hf
    · intro _ hvalid
      have hq3 : healthServiceQuery s c = Except.ok
          { stopCh := ⟨false⟩, dc := m.dc,
            filters := sortStrings (((goSplitChar ',' m.filter).map goTrimSpace).filter
              (fun t => t ≠ "")),
            name := m.name, near := m.near, tag := m.tag, connect := c } := by
        simp only [healthServiceQuery, hm]
        rw [if_pos hf, filterLoop_all_valid s _ hvalid]
      exact ⟨_, hq3, rfl⟩
    · intro l₁ f l₂ hsplit hval hnv hne
      simp only [healthServiceQuery, hm]
      rw [if_pos hf, hsplit, filterLoop_first_invalid s l₁ f l₂ hval hnv hne]

/-- C5 witness: the identifier `"svc|warning, critical,,"` parses with the
filters `["critical", "warning"]`, exercising splitting, trimming, empty-token
skipping and sorting. -/
theorem health_filter_contract_witness :
    healthMatch "svc|warning, critical,," =
      some { tag := "", name := "svc", dc := "", near := "", filter := "warning, critical,," } ∧
    (∃ q, healthServiceQuery "svc|warning, critical,," false = Except.ok q ∧
      q.filters = sortStrings (((goSplitChar ',' "warning, critical,,").map goTrimSpace).filter
        (fun t => t ≠ ""))) ∧
    sortStrings (((goSplitChar ',' "warning, critical,,").map goTrimSpace).filter
        (fun t => t ≠ "")) = [HealthCritical, HealthWarning] := by
  have h := health_filter_contract "svc|warning, critical,," false
    { tag := "", name := "svc", dc := "", near := "", filter := "warning, critical,," } rfl
  exact ⟨rfl, h.2.2.1 (by decide) (by decide), by rfl⟩

theorem kv_stop_open (k : KVListQuery) (hk : k.stopCh.closed = false) :
    k.Stop = Except.ok { k with stopCh := ⟨true⟩ } := by
  unfold KVListQuery.Stop closeChan
  simp [hk, Except.map]

theorem health_stop_open (q : HealthServiceQuery) (hq : q.stopCh.closed = false) :
    q.Stop = Except.ok { q with stopCh := ⟨true⟩ } := by
  unfold HealthServiceQuery.Stop closeChan
  simp [hq, Except.map]

theorem kv_stop_ok_closed {k k2 : KVListQuery} (h : k.Stop = Except.ok k2) :
    k2.stopCh.closed = true := by
  unfold KVListQuery.Stop closeChan at h
  by_cases hc : k.stopCh.closed
  · rw [if_pos hc] at h
    simp [Except.map] at h
  · rw [if_neg hc] at h
    simp [Except.map] at h
    rw [← h]

theorem health_stop_ok_closed {q q2 : HealthServiceQuery} (h : q.Stop = Except.ok q2) :
    q2.stopCh.closed = true := by
  unfold HealthServiceQuery.Stop closeChan at h
  by_cases hc : q.stopCh.closed
  · rw [if_pos hc] at h
    simp [Except.map] at h
  · rw [if_neg hc] at h
    simp [Except.map] at h
    rw [← h]

theorem kv_fetch_ok (d : KVListQuery)
    (transport : String → QueryOptions → Except GoError (List ConsulKVPair × ConsulQueryMeta))
    (raw : List ConsulKVPair) (qm : ConsulQueryMeta)
    (hstop : d.stopCh.closed = false)
    (ht : transport d.pfx (d.opts.Merge { Datacenter := d.dc }) = Except.ok (raw, qm)) :
    d.Fetch transport =
      { data := some (raw.map (normalizeKVPair d.pfx))
        meta := some { LastIndex := qm.LastIndex, LastContact := qm.LastContact }
        err := none
        transportCalls := 1 } := by
  unfold KVListQuery.Fetch
  rw [if_neg (by simp [chanReady, hstop])]
  dsimp only
  rw [ht]

theorem kv_fetch_err (d : KVListQuery)
    (transport : String → QueryOptions → Except GoError (List ConsulKVPair × ConsulQueryMeta))
    (e : GoError)
    (hstop : d.stopCh.closed = false)
    (ht : transport d.pfx (d.opts.Merge { Datacenter := d.dc }) = Except.error e) :
    d.Fetch transport =
      { data := none, meta := none, err := some (GoError.wrap d.toStr e), transportCalls := 1 } := by
  unfold KVListQuery.Fetch
  rw [if_neg (by simp [chanReady, hstop])]
  dsimp only
  rw [ht]

theorem health_fetch_ok (d : HealthServiceQuery)
    (agg : List ConsulHealthCheck → String)
    (transport : Bool → String → String → Bool → QueryOptions →
      Except GoError (List ConsulServiceEntry × ConsulQueryMeta))
    (entries : List ConsulServiceEntry) (qm : ConsulQueryMeta)
    (hstop : d.stopCh.closed = false)
    (ht : transport d.connect d.name d.tag
        (d.filters.length == 1 && (d.filters.getD 0 "" == HealthPassing))
        (d.opts.Merge { Datacenter := d.dc, Near := d.near }) = Except.ok (entries, qm)) :
    d.Fetch agg transport =
      { data := some (if d.near = "" then sortStableGo lessHS (healthLoop d.filters agg entries)
            else healthLoop d.filters agg entries)
        meta := some { LastIndex := qm.LastIndex, LastContact := qm.LastContact }
        err := none
        transportCalls := 1
        passingOnlySent := some (d.filters.length == 1 && (d.filters.getD 0 "" == HealthPassing)) } := by
  unfold HealthServiceQuery.Fetch
  rw [if_neg (by simp [chanReady, hstop])]
  dsimp only
  rw [ht]

theorem health_fetch_err (d : HealthServiceQuery)
    (agg : List ConsulHealthCheck → String)
    (transport : Bool → String → String → Bool → QueryOptions →
      Except GoError (List ConsulServiceEntry × ConsulQueryMeta))
    (e : GoError)
    (hstop : d.stopCh.closed = false)
    (ht : transport d.connect d.name d.tag
        (d.filters.length == 1 && (d.filters.getD 0 "" == HealthPassing))
        (d.opts.Merge { Datacenter := d.dc, Near := d.near }) = Except.error e) :
    d.Fetch agg transport =
      { data := none, meta := none, err := some (GoError.wrap d.toStr e), transportCalls := 1,
        passingOnlySent := some (d.filters.length == 1 && (d.filters.getD 0 "" == HealthPassing)) } := by
  unfold HealthServiceQuery.Fetch
  rw [if_neg (by simp [chanReady, hstop])]
  dsimp only
  rw [ht]

/-- C1 (amended): for both query kinds, calling `Stop()` once on a fresh
instance succeeds and marks the instance stopped, but a second `Stop()` call
panics (Go close of a closed channel) instead of being a no-op. -/
theorem stop_not_idempotent (k : KVListQuery) (q : HealthServiceQuery)
    (hk : k.stopCh.closed = false) (hq : q.stopCh.closed = false) :
    (∃ k2, k.Stop = Except.ok k2 ∧ k2.stopCh.closed = true ∧
      k2.Stop = Except.error "close of closed channel") ∧
    (∃ q2, q.Stop = Except.ok q2 ∧ q2.stopCh.closed = true ∧
      q2.Stop = Except.error "close of closed channel") := by
  constructor
  · exact ⟨{ k with stopCh := ⟨true⟩ }, kv_stop_open k hk, rfl, rfl⟩
  · exact ⟨{ q with stopCh := ⟨true⟩ }, health_stop_open q hq, rfl, rfl⟩

/-- C1 witness: the amended statement at two fresh concrete instances. -/
theorem stop_not_idempotent_witness :
    (mkKVListQuery "" "").stopCh.closed = false ∧ freshHealthQuery.stopCh.closed = false ∧
    (∃ k2, (mkKVListQuery "" "").Stop = Except.ok k2 ∧ k2.stopCh.closed = true ∧
      k2.Stop = Except.error "close of closed channel") ∧
    (∃ q2, freshHealthQuery.Stop = Except.ok q2 ∧ q2.stopCh.closed = true ∧
      q2.Stop = Except.error "close of closed channel") := by
  have h := stop_not_idempotent (mkKVListQuery "" "") freshHealthQuery rfl rfl
  exact ⟨rfl, rfl, h.1, h.2⟩

/-- C1 counterexample: on a fresh `KVListQuery` (and a fresh
`HealthServiceQuery`), `Stop()` followed by `Stop()` ends in the Go runtime
panic "close of closed channel" — the second call is not a no-op. -/
theorem stop_twice_counterexample :
    Except.bind (mkKVListQuery "" "").Stop KVListQuery.Stop =
        Except.error "close of closed channel" ∧
    Except.bind freshHealthQuery.Stop HealthServiceQuery.Stop =
        Except.error "close of closed channel" := ⟨rfl, rfl⟩

/-- C2: once `Stop()` has succeeded on an instance of either query kind,
every subsequent `Fetch` returns nil data, nil metadata and the `ErrStopped`
(`Cancelled`) error without invoking the transport collaborator. -/
theorem fetch_after_stop (k k2 : KVListQuery) (q q2 : HealthServiceQuery)
    (kt : String → QueryOptions → Except GoError (List ConsulKVPair × ConsulQueryMeta))
    (agg : List ConsulHealthCheck → String)
    (ht : Bool → String → String → Bool → QueryOptions →
      Except GoError (List ConsulServiceEntry × ConsulQueryMeta))
    (hk : k.Stop = Except.ok k2) (hq : q.Stop = Except.ok q2) :
    k2.Fetch kt = { data := none, meta := none, err := some ErrStopped, transportCalls := 0 } ∧
    q2.Fetch agg ht =
      { data := none, meta := none, err := some ErrStopped,
        transportCalls := 0, passingOnlySent := none } := by
  constructor
  · unfold KVListQuery.Fetch
    rw [if_pos (by simp [chanReady, kv_stop_ok_closed hk])]
  · unfold HealthServiceQuery.Fetch
    rw [if_pos (by simp [chanReady, health_stop_ok_closed hq])]

/-- C2 witness: a stopped instance of each kind fails fast with zero transport calls. -/
theorem fetch_after_stop_witness :
    (mkKVListQuery "" "").Stop = Except.ok { mkKVListQuery "" "" with stopCh := ⟨true⟩ } ∧
    freshHealthQuery.Stop = Except.ok { freshHealthQuery with stopCh := ⟨true⟩ } ∧
    ({ mkKVListQuery "" "" with stopCh := ⟨true⟩ } : KVListQuery).Fetch kvEmptyTransport =
      { data := none, meta := none, err := some ErrStopped, transportCalls := 0 } ∧
    ({ freshHealthQuery with stopCh := ⟨true⟩ } : HealthServiceQuery).Fetch
        (fun _ => HealthPassing) healthEmptyTransport =
      { data := none, meta := none, err := some ErrStopped, transportCalls := 0,
          passingOnlySent := none } := by
  have h := fetch_after_stop (mkKVListQuery "" "") { mkKVListQuery "" "" with stopCh := ⟨true⟩ }
    freshHealthQuery { freshHealthQuery with stopCh := ⟨true⟩ }
    kvEmptyTransport (fun _ => HealthPassing) healthEmptyTransport rfl rfl
  exact ⟨rfl, rfl, h.1, h.2⟩

/-- C3 counterexample: a fetch without a near-node hint over two entries that
share node name and service id (but differ in port) returns them in reversed
order — the output is not the stable sort of the transport order. -/
theorem health_sort_tie_counterexample :
    (freshHealthQuery.Fetch (fun _ => HealthPassing) tieTransport).data =
      some [normalizeEntry tieEntryB HealthPassing, normalizeEntry tieEntryA HealthPassing] ∧
    normalizeEntry tieEntryB HealthPassing ≠ normalizeEntry tieEntryA HealthPassing := by
  constructor
  · rfl
  · decide

/-- C3 (amended): with a near-node hint the transport order is preserved
verbatim (no client-side re-sort); without a hint the list is passed through
Go stdlib stable sort under the `ByNodeThenID` comparator, which — because
service ids are compared with `<=` — swaps, rather than preserves, a pair of
entries with equal node name and service id. -/
theorem health_sort_behavior (d : HealthServiceQuery)
    (agg : List ConsulHealthCheck → String)
    (transport : Bool → String → String → Bool → QueryOptions →
      Except GoError (List ConsulServiceEntry × ConsulQueryMeta))
    (entries : List ConsulServiceEntry) (qm : ConsulQueryMeta)
    (hstop : d.stopCh.closed = false)
    (ht : transport d.connect d.name d.tag
        (d.filters.length == 1 && (d.filters.getD 0 "" == HealthPassing))
        (d.opts.Merge { Datacenter := d.dc, Near := d.near }) = Except.ok (entries, qm)) :
    (d.near ≠ "" → (d.Fetch agg transport).data = some (healthLoop d.filters agg entries)) ∧
    (d.near = "" → (d.Fetch agg transport).data =
      some (sortStableGo lessHS (healthLoop d.filters agg entries))) ∧
    (∀ x y : HealthService, x.Node = y.Node → x.ID = y.ID →
      sortStableGo lessHS [x, y] = [y, x]) := by
  refine ⟨?_, ?_, ?_⟩
  · intro hnear
    rw [health_fetch_ok d agg transport entries qm hstop ht]
    simp [hnear]
  · intro hnear
    rw [health_fetch_ok d agg transport entries qm hstop ht]
    simp [hnear]
  · intro x y h1 h2
    exact sortStableGo_pair_swap lessHS x y (lessHS_of_eq h1.symm h2.symm)

/-- C3 witness: the near-hint pass-through and the tie swap at concrete inputs. -/
theorem health_sort_behavior_witness :
    ({ freshHealthQuery with near := "x" } : HealthServiceQuery).stopCh.closed = false ∧
    (({ freshHealthQuery with near := "x" } : HealthServiceQuery).Fetch
        (fun _ => HealthPassing) tieTransport).data =
      some (healthLoop [HealthPassing] (fun _ => HealthPassing) [tieEntryA, tieEntryB]) ∧
    sortStableGo lessHS
        [normalizeEntry tieEntryA HealthPassing, normalizeEntry tieEntryB HealthPassing] =
      [normalizeEntry tieEntryB HealthPassing, normalizeEntry tieEntryA HealthPassing] := by
  have h := health_sort_behavior { freshHealthQuery with near := "x" }
    (fun _ => HealthPassing) tieTransport [tieEntryA, tieEntryB]
    { LastIndex := 0, LastContact := 0 } rfl rfl
  exact ⟨rfl, h.1 (by decide), h.2.2 _ _ rfl rfl⟩

/-- C4 counterexample: `String()` on the query parsed from `"svc@dc1"`
returns `"health.service(svc@dc1|passing)"`, not `"health.service(svc@dc1)"`:
the default `passing` filter is always appended. -/
theorem health_string_counterexample :
    (healthServiceQuery "svc@dc1" false).map HealthServiceQuery.toStr =
      Except.ok "health.service(svc@dc1|passing)" ∧
    (Except.ok "health.service(svc@dc1|passing)" : Except GoError String) ≠
      Except.ok "health.service(svc@dc1)" := by
  constructor
  · rfl
  · intro h
    injection h with h2
    exact absurd h2 (by decide)

/-- C4 (amended): parsing `"svc@dc1"` yields name `"svc"`, datacenter
`"dc1"`, filters `["passing"]`, and `String()` returns
`"health.service(svc@dc1|passing)"` (the default filter is included). -/
theorem health_parse_svc_dc1 :
    ∃ q, healthServiceQuery "svc@dc1" false = Except.ok q ∧
      q.name = "svc" ∧ q.dc = "dc1" ∧ q.filters = [HealthPassing] ∧
      q.toStr = "health.service(svc@dc1|passing)" := by
  have hq : healthServiceQuery "svc@dc1" false = Except.ok
      { stopCh := ⟨false⟩, dc := "dc1", filters := [HealthPassing], name := "svc",
        near := "", tag := "", connect := false } := by rfl
  exact ⟨_, hq, rfl, rfl, rfl, by rfl⟩


theorem getD_map (f : ConsulKVPair → KeyPair) :
    ∀ (l : List ConsulKVPair) (i : Nat), i < l.length →
      (l.map f).getD i default = f (l.getD i default)
  | p :: rest, 0, _ => rfl
  | p :: rest, i + 1, h => getD_map f rest i (Nat.lt_of_succ_lt_succ h)
  | [], i, h => absurd h (by simp)

/-- C6: for every key-value-list fetch, the normalized records are exactly
the transport records in their original order, with `Path` the raw key, `Key`
the raw key with the queried prefix and leading separators stripped, and all
value/metadata fields copied verbatim. -/
theorem kv_normalization (d : KVListQuery)
    (transport : String → QueryOptions → Except GoError (List ConsulKVPair × ConsulQueryMeta))
    (raw : List ConsulKVPair) (qm : ConsulQueryMeta)
    (hstop : d.stopCh.closed = false)
    (ht : transport d.pfx (d.opts.Merge { Datacenter := d.dc }) = Except.ok (raw, qm)) :
    (d.Fetch transport).data = some (raw.map (normalizeKVPair d.pfx)) ∧
    (raw.map (normalizeKVPair d.pfx)).length = raw.length ∧
    (∀ i, i < raw.length →
      (raw.map (normalizeKVPair d.pfx)).getD i default =
        { Path := (raw.getD i default).Key
          Key := trimLeftSlashes (trimPfx (raw.getD i default).Key d.pfx)
          Value := (raw.getD i default).Value
          CreateIndex := (raw.getD i default).CreateIndex
          ModifyIndex := (raw.getD i default).ModifyIndex
          LockIndex := (raw.getD i default).LockIndex
          Flags := (raw.getD i default).Flags
          Session := (raw.getD i default).Session }) := by
  refine ⟨?_, by simp, ?_⟩
  · rw [kv_fetch_ok d transport raw qm hstop ht]
  · intro i hi
    rw [getD_map _ raw i hi]
    rfl

/-- C6 witness: the spec scenario — prefix `"app/config"`, raw key
`"app/config/timeout"`, value `"30"` normalizes to `Key = "timeout"`. -/
theorem kv_normalization_witness :
    ((mkKVListQuery "" "app/config").Fetch kvSampleTransport).data =
      some [{ Path := "app/config/timeout", Key := "timeout", Value := "30",
              CreateIndex := 10, ModifyIndex := 11, LockIndex := 0, Flags := 0, Session := "" }] := by
  have h := kv_normalization (mkKVListQuery "" "app/config") kvSampleTransport [kvSamplePair]
    { LastIndex := 12, LastContact := 3 } rfl rfl
  exact h.1

/-- C7: every health record in a fetch result comes from a transport entry
and its `Address` is the raw service address, falling back to the raw node
address exactly when the service address is empty. -/
theorem health_address_fallback (d : HealthServiceQuery)
    (agg : List ConsulHealthCheck → String)
    (transport : Bool → String → String → Bool → QueryOptions →
      Except GoError (List ConsulServiceEntry × ConsulQueryMeta))
    (entries : List ConsulServiceEntry) (qm : ConsulQueryMeta)
    (hstop : d.stopCh.closed = false)
    (ht : transport d.connect d.name d.tag
        (d.filters.length == 1 && (d.filters.getD 0 "" == HealthPassing))
        (d.opts.Merge { Datacenter := d.dc, Near := d.near }) = Except.ok (entries, qm))
    (hs : HealthService) (l : List HealthService)
    (hdata : (d.Fetch agg transport).data = some l) (hmem : hs ∈ l) :
    ∃ e, e ∈ entries ∧ acceptStatus d.filters (agg e.Checks) = true ∧
      hs = normalizeEntry e (agg e.Checks) ∧
      hs.Address = (if e.Service.Address = "" then e.Node.Address else e.Service.Address) := by
  rw [health_fetch_ok d agg transport entries qm hstop ht] at hdata
  simp only [Option.some.injEq] at hdata
  have hmem2 : hs ∈ healthLoop d.filters agg entries := by
    by_cases hnear : d.near = ""
    · rw [← hdata, if_pos hnear] at hmem
      exact (mem_sortStableGo lessHS _ hs).mp hmem
    · rw [← hdata, if_neg hnear] at hmem
      exact hmem
  obtain ⟨e, he, hacc, heq⟩ := (mem_healthLoop d.filters agg entries hs).mp hmem2
  refine ⟨e, he, hacc, heq, ?_⟩
  rw [heq]
  rfl

/-- C7 witness: an entry with empty service address and node address
`"10.0.0.1"` normalizes with `Address = "10.0.0.1"`. -/
theorem health_address_fallback_witness :
    (∃ e, e ∈ [addrEntry] ∧
      acceptStatus freshHealthQuery.filters ((fun _ => HealthPassing) e.Checks) = true ∧
      normalizeEntry addrEntry HealthPassing = normalizeEntry e ((fun _ => HealthPassing) e.Checks) ∧
      (normalizeEntry addrEntry HealthPassing).Address =
        (if e.Service.Address = "" then e.Node.Address else e.Service.Address)) ∧
    (normalizeEntry addrEntry HealthPassing).Address = "10.0.0.1" := by
  have h := health_address_fallback freshHealthQuery (fun _ => HealthPassing) addrTransport
    [addrEntry] { LastIndex := 0, LastContact := 0 } rfl rfl
    (normalizeEntry addrEntry HealthPassing) [normalizeEntry addrEntry HealthPassing] rfl
    (by simp)
  exact ⟨h, rfl⟩

/-- C8: the server-side passing-only fast path is requested exactly when the
stored filter list is `["passing"]`; `acceptStatus` keeps a status exactly
when it is in the filter list or the list contains `"any"`; and the fetch loop
keeps precisely the entries whose aggregated status is accepted. -/
theorem health_filtering (d : HealthServiceQuery)
    (agg : List ConsulHealthCheck → String)
    (transport : Bool → String → String → Bool → QueryOptions →
      Except GoError (List ConsulServiceEntry × ConsulQueryMeta))
    (hstop : d.stopCh.closed = false) :
    (d.Fetch agg transport).passingOnlySent = some (decide (d.filters = [HealthPassing])) ∧
    (∀ fs st, acceptStatus fs st = true ↔ st ∈ fs ∨ HealthAny ∈ fs) ∧
    (∀ fs (ag : List ConsulHealthCheck → String) es,
      healthLoop fs ag es = (es.filter (fun e => acceptStatus fs (ag e.Checks))).map
        (fun e => normalizeEntry e (ag e.Checks))) := by
  refine ⟨?_, acceptStatus_iff, healthLoop_eq_filter_map⟩
  unfold HealthServiceQuery.Fetch
  rw [if_neg (by simp [chanReady, hstop])]
  dsimp only
  rw [passingOnly_eq]
  cases htr : transport d.connect d.name d.tag (decide (d.filters = [HealthPassing]))
      (d.opts.Merge { Datacenter := d.dc, Near := d.near }) with
  | error e => rfl
  | ok p =>
    obtain ⟨entries, qm⟩ := p
    rfl

/-- C8 witness: the fast-path flag and the filter characterization at concrete inputs. -/
theorem health_filtering_witness :
    (freshHealthQuery.Fetch (fun _ => HealthPassing) healthEmptyTransport).passingOnlySent =
      some (decide (freshHealthQuery.filters = [HealthPassing])) ∧
    (freshHealthQuery.Fetch (fun _ => HealthPassing) healthEmptyTransport).passingOnlySent =
      some true ∧
    (acceptStatus [HealthWarning] HealthPassing = true ↔
      HealthPassing ∈ [HealthWarning] ∨ HealthAny ∈ [HealthWarning]) := by
  have h := health_filtering freshHealthQuery (fun _ => HealthPassing) healthEmptyTransport rfl
  exact ⟨h.1, by rfl, h.2.1 [HealthWarning] HealthPassing⟩

/-- C9: when the transport collaborator fails, `Fetch` of either query kind
returns nil data, nil metadata and the transport error wrapped with the
dependency canonical string form, after exactly one transport call (no
retry); the cause is retained inside the wrapper. -/
theorem transport_error_wrapped (k : KVListQuery)
    (kt : String → QueryOptions → Except GoError (List ConsulKVPair × ConsulQueryMeta))
    (e : GoError) (d : HealthServiceQuery)
    (agg : List ConsulHealthCheck → String)
    (ht2 : Bool → String → String → Bool → QueryOptions →
      Except GoError (List ConsulServiceEntry × ConsulQueryMeta))
    (e2 : GoError)
    (hk : k.stopCh.closed = false)
    (hke : kt k.pfx (k.opts.Merge { Datacenter := k.dc }) = Except.error e)
    (hd : d.stopCh.closed = false)
    (hde : ht2 d.connect d.name d.tag
        (d.filters.length == 1 && (d.filters.getD 0 "" == HealthPassing))
        (d.opts.Merge { Datacenter := d.dc, Near := d.near }) = Except.error e2) :
    k.Fetch kt =
      { data := none, meta := none, err := some (GoError.wrap k.toStr e), transportCalls := 1 } ∧
    d.Fetch agg ht2 =
      { data := none, meta := none, err := some (GoError.wrap d.toStr e2), transportCalls := 1,
          passingOnlySent := some (d.filters.length == 1 &&
            (d.filters.getD 0 "" == HealthPassing)) } :=
  ⟨kv_fetch_err k kt e hk hke, health_fetch_err d agg ht2 e2 hd hde⟩

/-- C9 witness: a failing transport at a concrete instance of each kind. -/
theorem transport_error_wrapped_witness :
    (mkKVListQuery "" "pfx").Fetch kvErrTransport =
      { data := none, meta := none,
        err := some (GoError.wrap (mkKVListQuery "" "pfx").toStr (GoError.errNew "connection refused")),
        transportCalls := 1 } ∧
    freshHealthQuery.Fetch (fun _ => HealthPassing) healthErrTransport =
      { data := none, meta := none,
        err := some (GoError.wrap freshHealthQuery.toStr (GoError.errNew "connection refused")),
        transportCalls := 1, passingOnlySent := some true } := by
  have h := transport_error_wrapped (mkKVListQuery "" "pfx") kvErrTransport
    (GoError.errNew "connection refused") freshHealthQuery (fun _ => HealthPassing)
    healthErrTransport (GoError.errNew "connection refused") rfl rfl rfl rfl
  exact ⟨h.1, h.2⟩

/-- C10: for two health records with equal node names and equal service ids,
`ByNodeThenID.Less` returns true in both argument orders (ids are compared
with `<=`), and in particular `Less` is not irreflexive, so it is not a
strict weak ordering. -/
theorem lessHS_tie (a b : HealthService) (hn : a.Node = b.Node) (hid : a.ID = b.ID) :
    lessHS a b = true ∧ lessHS b a = true ∧ lessHS a a = true :=
  ⟨lessHS_of_eq hn hid, lessHS_of_eq hn.symm hid.symm, lessHS_of_eq rfl rfl⟩

/-- C10 witness: the comparator at two concrete tied records. -/
theorem lessHS_tie_witness :
    lessHS (normalizeEntry tieEntryA HealthPassing) (normalizeEntry tieEntryB HealthPassing) = true ∧
    lessHS (normalizeEntry tieEntryB HealthPassing) (normalizeEntry tieEntryA HealthPassing) = true ∧
    lessHS (normalizeEntry tieEntryA HealthPassing) (normalizeEntry tieEntryA HealthPassing) = true := by
  have h := lessHS_tie (normalizeEntry tieEntryA HealthPassing)
    (normalizeEntry tieEntryB HealthPassing) rfl rfl
  exact h
